import Mathlib

/- Shallow embedding of the signaling-and-session core of the repository:
   the class WebRTCSignalingServer (connection registry, signaling dispatch,
   server-mediated negotiation, direct relay, HLS transcode orchestration and
   disconnect cleanup).

   Modelling conventions:
   - The JS Map of clients is an insertion-ordered association list
     (JS Map preserves insertion order; set on an existing key updates in
     place, delete removes the entry).
   - A WebSocket is reduced to an opaque handle plus whether readyState
     equals WebSocket.OPEN (the only readyState test the code performs).
   - RTCPeerConnection is reduced to an opaque handle plus the fields the
     code observes: remote description, local description, added candidates.
   - Side effects (ws.send, spawn, kill, stream.end, pc.close, ws.close)
     are returned as an ordered list of Effect values.
   - External operations of the werift transport that can fail
     (setRemoteDescription on a malformed SDP) or produce values
     (createAnswer) are parameters of the embedding (applyOk, mkAnswer):
     the code depends only on their success/failure and their result. -/

/-- A ws WebSocket: opaque identity plus whether readyState = WebSocket.OPEN. -/
structure WS where
  handle : Nat
  readyState : Bool
  deriving DecidableEq

/-- An RTCPeerConnection as the code observes it: opaque identity,
remote/local descriptions, accumulated ICE candidates. -/
structure PeerConn where
  handle : Nat
  remoteDescription : Option String
  localDescription : Option String
  candidates : List String
  deriving DecidableEq

/-- The mediaStreams field of ClientConnection: per-kind optional sink
(an opaque write-stream handle). -/
structure MediaStreams where
  video : Option Nat
  audio : Option Nat
  deriving DecidableEq

/-- interface ClientConnection from the source. -/
structure ClientConnection where
  id : String
  ws : WS
  peerConnection : Option PeerConn
  mediaStreams : MediaStreams
  ffmpegProcess : Option Nat
  deriving DecidableEq

/-- Server state: the clients Map (insertion-ordered association list) plus
allocation counters giving fresh identities to spawned subprocesses and to
created peer connections. -/
structure ServerState where
  clients : List (String × ClientConnection)
  nextProc : Nat
  nextPc : Nat
  deriving DecidableEq

/-- JS Map.get on an insertion-ordered association list. -/
def mapGet {α : Type} : List (String × α) → String → Option α
  | [], _ => none
  | (k', v) :: rest, k => if k' = k then some v else mapGet rest k

/-- JS Map.set: update in place when the key is present (keeping its
insertion position), otherwise append at the end. -/
def mapSet {α : Type} : List (String × α) → String → α → List (String × α)
  | [], k, v => [(k, v)]
  | (k', v') :: rest, k, v =>
    if k' = k then (k, v) :: rest else (k', v') :: mapSet rest k v

/-- JS Map.delete: remove the entry with the given key. -/
def mapDelete {α : Type} (m : List (String × α)) (k : String) : List (String × α) :=
  m.filter (fun e => decide (e.1 ≠ k))

theorem mapGet_mapSet_self {α : Type} (m : List (String × α)) (k : String) (v : α) :
    mapGet (mapSet m k v) k = some v := by
  induction m with
  | nil => simp [mapSet, mapGet]
  | cons e rest ih =>
    by_cases h : e.1 = k
    · simp [mapSet, mapGet, h]
    · simp [mapSet, mapGet, h, ih]

theorem mapGet_mapSet_ne {α : Type} (m : List (String × α)) (k k' : String) (v : α)
    (h : k' ≠ k) : mapGet (mapSet m k v) k' = mapGet m k' := by
  induction m with
  | nil => simp [mapSet, mapGet, Ne.symm h]
  | cons e rest ih =>
    obtain ⟨a, b⟩ := e
    by_cases ha : a = k
    · subst ha
      simp [mapSet, mapGet, Ne.symm h]
    · simp [mapSet, mapGet, ha, ih]

theorem mapGet_mapDelete_self {α : Type} (m : List (String × α)) (k : String) :
    mapGet (mapDelete m k) k = none := by
  induction m with
  | nil => simp [mapDelete, mapGet]
  | cons e rest ih =>
    by_cases h : e.1 = k
    · simpa [mapDelete, mapGet, h] using ih
    · simpa [mapDelete, mapGet, h] using ih

theorem mapGet_mem {α : Type} {m : List (String × α)} {k : String} {v : α}
    (h : mapGet m k = some v) : (k, v) ∈ m := by
  induction m with
  | nil => simp [mapGet] at h
  | cons e rest ih =>
    obtain ⟨a, b⟩ := e
    by_cases ha : a = k
    · subst ha
      simp [mapGet] at h
      subst h
      exact List.mem_cons_self _ _
    · simp [mapGet, ha] at h
      exact List.mem_cons_of_mem _ (ih h)

theorem mapDelete_sublist {α : Type} (m : List (String × α)) (k : String) :
    (mapDelete m k).Sublist m :=
  List.filter_sublist m

/-- The three relayed message kinds handled by relayP2PMessage. -/
inductive P2PType
  | directOffer
  | directAnswer
  | directCandidate
  deriving DecidableEq

/-- The payload of a SignalingMessage as declared in the source interface. -/
structure SigPayload where
  sdp : Option String
  candidate : Option String
  toPeerID : Option String
  fromPeerID : Option String
  clientId : Option String
  deriving DecidableEq

/-- Messages the server sends on a client control channel (the JSON
objects passed to ws.send across the class). -/
inductive OutMessage
  | serverAnswer (sdp : String)
  | serverCandidate (candidate : String)
  | signalInitiateP2P (fromPeerID : String)
  | relayed (ty : P2PType) (payload : SigPayload)
  | peerDisconnected (clientId : String)
  deriving DecidableEq

/-- Observable side effects of the server code, in program order. -/
inductive Effect
  | send (toId : String) (msg : OutMessage)
  | spawn (proc : Nat) (cmd : String) (args : List String)
  | kill (proc : Nat) (signal : String)
  | endStream (sink : Nat)
  | closePeerConnection (pc : Nat)
  | closeWs (code : Nat) (reason : String)
  deriving DecidableEq

/-- outputDir field of the class. -/
def outputDir : String := "./output"

/-- hlsDir field of the class. -/
def hlsDir : String := "./hls"

/-- path.join reduced to separator concatenation. -/
def pathJoin (a b : String) : String := a ++ "/" ++ b

/-- path.join(outputDir, clientId, "video.h264"). -/
def videoPathOf (clientId : String) : String :=
  pathJoin (pathJoin outputDir clientId) "video.h264"

/-- path.join(outputDir, clientId, "audio.ogg"). -/
def audioPathOf (clientId : String) : String :=
  pathJoin (pathJoin outputDir clientId) "audio.ogg"

/-- path.join(hlsDir, "playlist.m3u8"): the single shared published output
path used by both the single-client and the composite job. -/
def hlsPlaylistPath : String := pathJoin hlsDir "playlist.m3u8"

/-- The ffmpeg argument list built in createSingleClientHLSStream. -/
def singleClientFfmpegArgs (videoPath audioPath hlsPath : String) : List String :=
  ["-re", "-i", videoPath, "-i", audioPath,
   "-c:v", "libx264", "-preset", "ultrafast", "-tune", "zerolatency",
   "-c:a", "aac", "-b:a", "128k",
   "-f", "hls", "-hls_time", "2", "-hls_list_size", "10",
   "-hls_flags", "delete_segments", "-hls_allow_cache", "0", hlsPath]

/-- The ffmpeg argument list built in createCompositeHLSStream: the two
video inputs stacked side by side, audio mapped from the first input. -/
def compositeFfmpegArgs (video1Path video2Path audio1Path compositeHlsPath : String) :
    List String :=
  ["-re", "-i", video1Path, "-i", video2Path, "-i", audio1Path,
   "-filter_complex", "[0:v][1:v]hstack=inputs=2[v]", "-map", "[v]", "-map", "2:a",
   "-c:v", "libx264", "-preset", "ultrafast", "-tune", "zerolatency",
   "-c:a", "aac", "-b:a", "128k",
   "-f", "hls", "-hls_time", "2", "-hls_list_size", "10",
   "-hls_flags", "delete_segments", "-hls_allow_cache", "0", compositeHlsPath]

/-- The wss connection handler body: a missing clientId query parameter
closes the socket with policy code 1008; otherwise a fresh ClientConnection
with empty optional fields is unconditionally written into the clients Map
(Map.set — an entry already stored under the same id is replaced). -/
def handleConnection (st : ServerState) (clientId? : Option String) (ws : WS) :
    ServerState × List Effect :=
  match clientId? with
  | none => (st, [Effect.closeWs 1008 "Client ID required"])
  | some clientId =>
    let client : ClientConnection :=
      { id := clientId, ws := ws, peerConnection := none,
        mediaStreams := { video := none, audio := none }, ffmpegProcess := none }
    ({ st with clients := mapSet st.clients clientId client }, [])

/-- forEach over the clients Map sending one message per entry passing the
filter condition; shared shape of handleInitiateP2P's broadcast and the
peer-disconnected notification loop in handleClientDisconnect. -/
def sendEach (l : List (String × ClientConnection))
    (cond : String × ClientConnection → Bool) (msg : OutMessage) : List Effect :=
  l.filterMap (fun e => if cond e then some (Effect.send e.1 msg) else none)

/-- handleInitiateP2P: broadcast a signal-initiate-p2p notification carrying
fromPeerID to every other registered client whose channel is open. -/
def handleInitiateP2P (st : ServerState) (fromClientId : String) : List Effect :=
  sendEach st.clients
    (fun e => (e.1 != fromClientId) && e.2.ws.readyState)
    (OutMessage.signalInitiateP2P fromClientId)

/-- handleServerOffer. applyOk models whether setRemoteDescription accepts
the offered SDP (the werift transport is external); mkAnswer models
createAnswer. The source assigns client.peerConnection = pc before the
awaited negotiation steps inside the try block, so on failure the catch
only logs and the client keeps the fresh (failed) peer connection; on
success the same pc (same handle) holds the remote description and the
local answer, and exactly one server-answer message is sent. -/
def handleServerOffer (applyOk : String → Bool) (mkAnswer : String → String)
    (st : ServerState) (clientId : String) (sdp? : Option String) :
    ServerState × List Effect :=
  match mapGet st.clients clientId, sdp? with
  | some client, some sdp =>
    let pc : PeerConn :=
      { handle := st.nextPc, remoteDescription := none,
        localDescription := none, candidates := [] }
    if applyOk sdp then
      let pc2 : PeerConn :=
        { pc with remoteDescription := some sdp, localDescription := some (mkAnswer sdp) }
      ({ st with
          clients := mapSet st.clients clientId { client with peerConnection := some pc2 },
          nextPc := st.nextPc + 1 },
       [Effect.send clientId (OutMessage.serverAnswer (mkAnswer sdp))])
    else
      ({ st with
          clients := mapSet st.clients clientId { client with peerConnection := some pc },
          nextPc := st.nextPc + 1 },
       [])
  | _, _ => (st, [])

/-- handleServerCandidate: requires an existing peer connection and a
candidate in the payload; appends the candidate to the transport.
addIceCandidate failures are caught and logged (no state change modelled
for them beyond the accumulation). -/
def handleServerCandidate (st : ServerState) (clientId : String) (payload : SigPayload) :
    ServerState × List Effect :=
  match mapGet st.clients clientId with
  | none => (st, [])
  | some client =>
    match client.peerConnection, payload.candidate with
    | some pc, some cand =>
      let pc' : PeerConn := { pc with candidates := pc.candidates ++ [cand] }
      ({ st with clients := mapSet st.clients clientId { client with peerConnection := some pc' } },
       [])
    | _, _ => (st, [])

/-- relayP2PMessage: look up payload.toPeerID; if the target exists and its
channel is open, forward the message with fromPeerID overwritten to the
sender's id; otherwise silently drop. -/
def relayP2PMessage (st : ServerState) (fromClientId : String)
    (ty : P2PType) (payload : SigPayload) : List Effect :=
  match payload.toPeerID with
  | none => []
  | some targetClientId =>
    match mapGet st.clients targetClientId with
    | some targetClient =>
      if targetClient.ws.readyState then
        [Effect.send targetClientId
          (OutMessage.relayed ty { payload with fromPeerID := some fromClientId })]
      else []
    | none => []

/-- The filter Array.from(this.clients...).filter(c => c.peerConnection):
clients currently holding a server-mediated peer connection, in Map
insertion order. -/
def activeEntries (st : ServerState) : List (String × ClientConnection) :=
  st.clients.filter (fun e => e.2.peerConnection.isSome)

/-- createSingleClientHLSStream: spawn ffmpeg on the given input paths and
record the fresh subprocess handle in the client's ffmpegProcess field. -/
def createSingleClientHLSStream (st : ServerState) (clientId videoPath audioPath hlsPath : String) :
    ServerState × List Effect :=
  match mapGet st.clients clientId with
  | none => (st, [])
  | some client =>
    let proc := st.nextProc
    ({ st with
        clients := mapSet st.clients clientId { client with ffmpegProcess := some proc },
        nextProc := proc + 1 },
     [Effect.spawn proc "ffmpeg" (singleClientFfmpegArgs videoPath audioPath hlsPath)])

/-- createCompositeHLSStream: take the first two active entries (slice(0, 2)
of the filtered entries), spawn ffmpeg on their inputs (side-by-side video,
first client's audio, shared playlist path). The spawned ChildProcess is
held only in the local compositeProcess binding: it is not stored in any
client's ffmpegProcess field. -/
def createCompositeHLSStream (st : ServerState) : ServerState × List Effect :=
  match activeEntries st with
  | e1 :: e2 :: _ =>
    let proc := st.nextProc
    ({ st with nextProc := proc + 1 },
     [Effect.spawn proc "ffmpeg"
        (compositeFfmpegArgs (videoPathOf e1.1) (videoPathOf e2.1)
          (audioPathOf e1.1) hlsPlaylistPath)])
  | _ => (st, [])

/-- startHLSProcessing: return early when the client is unknown or already
owns a subprocess handle; otherwise count active clients and start either
the composite or the single-client pipeline. -/
def startHLSProcessing (st : ServerState) (clientId : String) : ServerState × List Effect :=
  match mapGet st.clients clientId with
  | none => (st, [])
  | some client =>
    if client.ffmpegProcess.isSome then (st, [])
    else
      let videoPath := videoPathOf clientId
      let audioPath := audioPathOf clientId
      let hlsPath := hlsPlaylistPath
      if 2 ≤ (activeEntries st).length then
        createCompositeHLSStream st
      else
        createSingleClientHLSStream st clientId videoPath audioPath hlsPath

/-- The cleanup section of handleClientDisconnect, in source order: close
the peer connection if present, end each populated media stream
(Object.values of mediaStreams), send SIGTERM to the recorded ffmpeg
subprocess if present. -/
def cleanupEffects (client : ClientConnection) : List Effect :=
  (match client.peerConnection with
   | some pc => [Effect.closePeerConnection pc.handle]
   | none => []) ++
  (match client.mediaStreams.video with
   | some s => [Effect.endStream s]
   | none => []) ++
  (match client.mediaStreams.audio with
   | some s => [Effect.endStream s]
   | none => []) ++
  (match client.ffmpegProcess with
   | some p => [Effect.kill p "SIGTERM"]
   | none => [])

/-- handleClientDisconnect: unknown id is a no-op; otherwise run the
cleanup effects, remove the entry from the Map, then notify every
remaining client whose channel is open with a peer-disconnected message
naming the departed id. -/
def handleClientDisconnect (st : ServerState) (clientId : String) :
    ServerState × List Effect :=
  match mapGet st.clients clientId with
  | none => (st, [])
  | some client =>
    let remaining := mapDelete st.clients clientId
    ({ st with clients := remaining },
     cleanupEffects client ++
       sendEach remaining (fun e => e.2.ws.readyState)
         (OutMessage.peerDisconnected clientId))

/-- Inbound SignalingMessage kinds (the type union of the source
interface). -/
inductive InMessage
  | serverOffer (payload : SigPayload)
  | serverAnswerIn (payload : SigPayload)
  | serverCandidate (payload : SigPayload)
  | directOffer (payload : SigPayload)
  | directAnswer (payload : SigPayload)
  | directCandidate (payload : SigPayload)
  | signalInitiateP2P (payload : SigPayload)
  deriving DecidableEq

/-- handleSignalingMessage: drop messages from unknown senders, then route
by message type; the switch has no case for a server-answer from a client,
so it falls through with no action. -/
def handleSignalingMessage (applyOk : String → Bool) (mkAnswer : String → String)
    (st : ServerState) (clientId : String) (msg : InMessage) :
    ServerState × List Effect :=
  match mapGet st.clients clientId with
  | none => (st, [])
  | some _ =>
    match msg with
    | .signalInitiateP2P _ => (st, handleInitiateP2P st clientId)
    | .serverOffer p => handleServerOffer applyOk mkAnswer st clientId p.sdp
    | .serverCandidate p => handleServerCandidate st clientId p
    | .directOffer p => (st, relayP2PMessage st clientId .directOffer p)
    | .directAnswer p => (st, relayP2PMessage st clientId .directAnswer p)
    | .directCandidate p => (st, relayP2PMessage st clientId .directCandidate p)
    | .serverAnswerIn _ => (st, [])

/-- The session has reached AnswerSent: a peer connection exists and its
local description (the answer) has been set. -/
def answerSent (c : ClientConnection) : Bool :=
  match c.peerConnection with
  | some pc => pc.localDescription.isSome
  | none => false

/-- Number of spawn effects in an effect list. -/
def spawnCount (effs : List Effect) : Nat :=
  (effs.filter (fun e => match e with | .spawn _ _ _ => true | _ => false)).length

/-- Well-formedness: every subprocess handle recorded on a client was
allocated below the nextProc counter (true of every reachable state). -/
def procFresh (st : ServerState) : Prop :=
  ∀ e ∈ st.clients, ∀ p, e.2.ffmpegProcess = some p → p < st.nextProc

/-- Well-formedness: every peer-connection handle recorded on a client was
allocated below the nextPc counter (true of every reachable state). -/
def pcFresh (st : ServerState) : Prop :=
  ∀ e ∈ st.clients, ∀ pc, e.2.peerConnection = some pc → pc.handle < st.nextPc

theorem sendEach_cons (e : String × ClientConnection) (l : List (String × ClientConnection))
    (cond : String × ClientConnection → Bool) (msg : OutMessage) :
    sendEach (e :: l) cond msg =
      (if cond e then [Effect.send e.1 msg] else []) ++ sendEach l cond msg := by
  by_cases h : cond e <;> simp [sendEach, List.filterMap_cons, h]

theorem mem_sendEach {l : List (String × ClientConnection)}
    {cond : String × ClientConnection → Bool} {msg : OutMessage} {eff : Effect} :
    eff ∈ sendEach l cond msg ↔
      ∃ e, e ∈ l ∧ cond e = true ∧ eff = Effect.send e.1 msg := by
  simp only [sendEach, List.mem_filterMap]
  constructor
  · rintro ⟨e, he, hf⟩
    by_cases hc : cond e
    · refine ⟨e, he, hc, ?_⟩
      simp [hc] at hf
      exact hf.symm
    · simp [hc] at hf
  · rintro ⟨e, he, hc, heq⟩
    exact ⟨e, he, by simp [hc, heq]⟩

theorem kill_not_mem_sendEach (l : List (String × ClientConnection))
    (cond : String × ClientConnection → Bool) (msg : OutMessage) (q : Nat) (s : String) :
    Effect.kill q s ∉ sendEach l cond msg := by
  intro h
  rcases mem_sendEach.mp h with ⟨e, _, _, heq⟩
  exact Effect.noConfusion heq

theorem count_sendEach_eq_zero {l : List (String × ClientConnection)}
    {cond : String × ClientConnection → Bool} {msg : OutMessage} {cid : String}
    (h : ∀ e ∈ l, cond e = true → e.1 ≠ cid) :
    (sendEach l cond msg).count (Effect.send cid msg) = 0 := by
  rw [List.count_eq_zero]
  intro hmem
  rcases mem_sendEach.mp hmem with ⟨e, he, hc, heq⟩
  simp only [Effect.send.injEq] at heq
  exact h e he hc heq.1.symm

theorem count_sendEach_eq_one {l : List (String × ClientConnection)}
    (hnd : (l.map Prod.fst).Nodup)
    {cond : String × ClientConnection → Bool} {msg : OutMessage}
    {cid : String} {c : ClientConnection}
    (hmem : (cid, c) ∈ l) (hcond : cond (cid, c) = true) :
    (sendEach l cond msg).count (Effect.send cid msg) = 1 := by
  induction l with
  | nil => simp at hmem
  | cons e rest ih =>
    obtain ⟨k, cc⟩ := e
    rw [List.map_cons, List.nodup_cons] at hnd
    rw [sendEach_cons, List.count_append]
    rcases List.mem_cons.mp hmem with hhd | htl
    · rw [Prod.mk.injEq] at hhd
      obtain ⟨hk, hc⟩ := hhd
      subst hk
      subst hc
      have hz : (sendEach rest cond msg).count (Effect.send cid msg) = 0 := by
        apply count_sendEach_eq_zero
        intro e he _ hcne
        apply hnd.1
        have hfst : e.1 ∈ rest.map Prod.fst := List.mem_map_of_mem Prod.fst he
        rwa [hcne] at hfst
      rw [hz, hcond]
      simp
    · have hkcid : k ≠ cid := by
        intro hk
        apply hnd.1
        rw [hk]
        have h2 : Prod.fst (cid, c) ∈ rest.map Prod.fst :=
          List.mem_map_of_mem Prod.fst htl
        exact h2
      have hone := ih hnd.2 htl
      rw [hone]
      by_cases hck : cond (k, cc)
      · simp [hck, List.count_cons, hkcid]
      · simp [hck]

theorem send_not_mem_cleanupEffects (client : ClientConnection) (cid : String)
    (m : OutMessage) : Effect.send cid m ∉ cleanupEffects client := by
  cases hpc : client.peerConnection <;> cases hv : client.mediaStreams.video <;>
    cases ha : client.mediaStreams.audio <;> cases hp : client.ffmpegProcess <;>
    simp [cleanupEffects, hpc, hv, ha, hp]

theorem kill_mem_cleanupEffects {client : ClientConnection} {q : Nat} {s : String}
    (h : Effect.kill q s ∈ cleanupEffects client) :
    client.ffmpegProcess = some q ∧ s = "SIGTERM" := by
  cases hpc : client.peerConnection <;> cases hv : client.mediaStreams.video <;>
    cases ha : client.mediaStreams.audio <;> cases hp : client.ffmpegProcess <;>
    simp [cleanupEffects, hpc, hv, ha, hp] at h <;> simp [h]

/-- An open control channel with the given handle. -/
def wsOpen (n : Nat) : WS := { handle := n, readyState := true }

/-- A closed (non-OPEN) control channel with the given handle. -/
def wsClosed (n : Nat) : WS := { handle := n, readyState := false }

/-- A freshly connected client: exactly what the connection handler stores. -/
def bareClient (id : String) (w : WS) : ClientConnection :=
  { id := id, ws := w, peerConnection := none,
    mediaStreams := { video := none, audio := none }, ffmpegProcess := none }

/-- A fully negotiated demo peer connection. -/
def pcDemo (n : Nat) : PeerConn :=
  { handle := n, remoteDescription := some "offer-sdp",
    localDescription := some "answer-sdp", candidates := [] }

/-- A client holding an active server-mediated session. -/
def activeClient (id : String) (w : WS) (pcHandle : Nat) : ClientConnection :=
  { bareClient id w with peerConnection := some (pcDemo pcHandle) }

/-- Registry with two clients that both hold active sessions. -/
def twoActiveState : ServerState :=
  { clients := [("a", activeClient "a" (wsOpen 0) 0), ("b", activeClient "b" (wsOpen 1) 1)],
    nextProc := 0, nextPc := 2 }

/-- Registry with a single client "a" holding an active session. -/
def oneActiveState : ServerState :=
  { clients := [("a", activeClient "a" (wsOpen 0) 0)], nextProc := 0, nextPc := 1 }

/-- Claim C1, amended: a connection attempt carrying an id already present
in the registry is not rejected; the handler always stores a fresh client
record under that id, overwriting the existing entry, and emits no close
and no error. -/
theorem C1_register_overwrites (st : ServerState) (clientId : String) (w : WS) :
    mapGet (handleConnection st (some clientId) w).1.clients clientId =
      some (bareClient clientId w) ∧
    (handleConnection st (some clientId) w).2 = [] := by
  constructor
  · simp [handleConnection, bareClient, mapGet_mapSet_self]
  · rfl

/-- Claim C1 counterexample: client "a" is already registered (and owns a
subprocess handle); a second connection carrying id "a" is not rejected
with DuplicateClient — the registry entry for "a" is changed (the stored
record is replaced by a fresh one) and no close or error is emitted. -/
theorem C1_counterexample :
    mapGet (handleConnection
        { clients := [("a", { bareClient "a" (wsOpen 0) with ffmpegProcess := some 0 })],
          nextProc := 1, nextPc := 0 } (some "a") (wsOpen 1)).1.clients "a" ≠
      mapGet
        ({ clients := [("a", { bareClient "a" (wsOpen 0) with ffmpegProcess := some 0 })],
           nextProc := 1, nextPc := 0 } : ServerState).clients "a" ∧
    (handleConnection
        { clients := [("a", { bareClient "a" (wsOpen 0) with ffmpegProcess := some 0 })],
          nextProc := 1, nextPc := 0 } (some "a") (wsOpen 1)).2 = [] := by
  decide

/-- Claim C6, confirmed: a direct-offer / direct-answer / direct-candidate
message addressed to a registered target with an open channel is forwarded
to the target unchanged except that fromPeerID is overwritten with the
sender's id; an absent target or a closed channel drops the message with
no delivery and nothing sent back to the sender. -/
theorem C6_relay (st : ServerState) (fromClientId : String) (ty : P2PType)
    (payload : SigPayload) (target : String)
    (htgt : payload.toPeerID = some target) :
    (∀ tc, mapGet st.clients target = some tc → tc.ws.readyState = true →
      relayP2PMessage st fromClientId ty payload =
        [Effect.send target
          (OutMessage.relayed ty { payload with fromPeerID := some fromClientId })]) ∧
    (∀ tc, mapGet st.clients target = some tc → tc.ws.readyState = false →
      relayP2PMessage st fromClientId ty payload = []) ∧
    (mapGet st.clients target = none →
      relayP2PMessage st fromClientId ty payload = []) := by
  refine ⟨fun tc hget hopen => ?_, fun tc hget hclosed => ?_, fun hget => ?_⟩
  · simp [relayP2PMessage, htgt, hget, hopen]
  · simp [relayP2PMessage, htgt, hget, hclosed]
  · simp [relayP2PMessage, htgt, hget]

/-- Claim C6 witness: concrete relay where the sender supplied a bogus
fromPeerID that gets overwritten, plus a concrete silent drop. -/
theorem C6_relay_witness :
    relayP2PMessage twoActiveState "a" P2PType.directOffer
        { sdp := some "s", candidate := none, toPeerID := some "b",
          fromPeerID := some "spoofed", clientId := none } =
      [Effect.send "b"
        (OutMessage.relayed P2PType.directOffer
          { sdp := some "s", candidate := none, toPeerID := some "b",
            fromPeerID := some "a", clientId := none })] ∧
    relayP2PMessage oneActiveState "a" P2PType.directOffer
        { sdp := some "s", candidate := none, toPeerID := some "b",
          fromPeerID := some "spoofed", clientId := none } = [] :=
  ⟨(C6_relay twoActiveState "a" P2PType.directOffer
      { sdp := some "s", candidate := none, toPeerID := some "b",
        fromPeerID := some "spoofed", clientId := none } "b" (by decide)).1
      (activeClient "b" (wsOpen 1) 1) (by decide) (by decide),
   (C6_relay oneActiveState "a" P2PType.directOffer
      { sdp := some "s", candidate := none, toPeerID := some "b",
        fromPeerID := some "spoofed", clientId := none } "b" (by decide)).2.2
      (by decide)⟩

/-- Claim C7, confirmed: initiate-discovery from a client broadcasts a
signal-initiate-p2p notification carrying the sender's id to exactly the
other registered clients whose channels are open — never to the sender,
never to a closed channel, exactly once per eligible client — and with no
other clients registered nothing is sent. -/
theorem C7_discovery (st : ServerState) (fromClientId : String)
    (hnd : (st.clients.map Prod.fst).Nodup) :
    (∀ m, Effect.send fromClientId m ∉ handleInitiateP2P st fromClientId) ∧
    (∀ cid c, (cid, c) ∈ st.clients → cid ≠ fromClientId → c.ws.readyState = true →
      (handleInitiateP2P st fromClientId).count
        (Effect.send cid (OutMessage.signalInitiateP2P fromClientId)) = 1) ∧
    (∀ cid m, Effect.send cid m ∈ handleInitiateP2P st fromClientId →
      ∃ c, (cid, c) ∈ st.clients ∧ cid ≠ fromClientId ∧ c.ws.readyState = true ∧
        m = OutMessage.signalInitiateP2P fromClientId) ∧
    ((∀ e ∈ st.clients, e.1 = fromClientId) → handleInitiateP2P st fromClientId = []) := by
  refine ⟨?_, ?_, ?_, ?_⟩
  · intro m hmem
    rcases mem_sendEach.mp hmem with ⟨e, _, hc, heq⟩
    simp only [Effect.send.injEq] at heq
    rw [← heq.1] at hc
    simp at hc
  · intro cid c hmem hne hopen
    apply count_sendEach_eq_one hnd hmem
    simp [hne, hopen]
  · intro cid m hmem
    rcases mem_sendEach.mp hmem with ⟨e, he, hc, heq⟩
    simp only [Effect.send.injEq] at heq
    obtain ⟨hcid, hm⟩ := heq
    subst hcid
    simp only [Bool.and_eq_true, bne_iff_ne, ne_eq] at hc
    exact ⟨e.2, by simpa using he, hc.1, hc.2, hm⟩
  · intro hall
    simp only [handleInitiateP2P, sendEach, List.filterMap_eq_nil_iff]
    intro e he
    simp [hall e he]

/-- Claim C7 witness: registry with sender "a", open "b", closed "c": the
notification reaches "b" exactly once; a registry holding only "a" sends
nothing. -/
theorem C7_discovery_witness :
    (handleInitiateP2P
        { clients := [("a", bareClient "a" (wsOpen 0)), ("b", bareClient "b" (wsOpen 1)),
                      ("c", bareClient "c" (wsClosed 2))],
          nextProc := 0, nextPc := 0 } "a").count
      (Effect.send "b" (OutMessage.signalInitiateP2P "a")) = 1 ∧
    handleInitiateP2P
        { clients := [("a", bareClient "a" (wsOpen 0))], nextProc := 0, nextPc := 0 } "a" = [] :=
  ⟨(C7_discovery
      { clients := [("a", bareClient "a" (wsOpen 0)), ("b", bareClient "b" (wsOpen 1)),
                    ("c", bareClient "c" (wsClosed 2))],
        nextProc := 0, nextPc := 0 } "a" (by decide)).2.1 "b" (bareClient "b" (wsOpen 1))
      (by decide) (by decide) (by decide),
   (C7_discovery
      { clients := [("a", bareClient "a" (wsOpen 0))], nextProc := 0, nextPc := 0 } "a"
      (by decide)).2.2.2 (by decide)⟩

/-- The peer connection handleServerOffer stores on success: fresh handle,
remote description from the offer, local description from createAnswer. -/
def negotiatedPc (n : Nat) (sdp ans : String) : PeerConn :=
  { handle := n, remoteDescription := some sdp,
    localDescription := some ans, candidates := [] }

/-- The peer connection left behind by a failed handleServerOffer: fresh
handle, no descriptions applied. -/
def failedPc (n : Nat) : PeerConn :=
  { handle := n, remoteDescription := none, localDescription := none, candidates := [] }

/-- Claim C2, amended: the no-op guard is keyed on the client's recorded
job handle, so startHLSProcessing is idempotent exactly when a handle gets
recorded: a client that already owns a handle is a no-op, and two calls in
a row spawn at most one subprocess whenever fewer than two clients hold
active sessions (the single-client path, which records the handle). In the
composite path the spawned subprocess is not recorded on any client, so
repeated calls spawn repeatedly. -/
theorem C2_idempotence_single (st : ServerState) (clientId : String) :
    (∀ client, mapGet st.clients clientId = some client →
      client.ffmpegProcess.isSome = true →
      startHLSProcessing st clientId = (st, [])) ∧
    ((activeEntries st).length < 2 →
      spawnCount (startHLSProcessing st clientId).2 +
        spawnCount (startHLSProcessing (startHLSProcessing st clientId).1 clientId).2 ≤ 1) := by
  constructor
  · intro client hget hown
    simp [startHLSProcessing, hget, hown]
  · intro hlt
    cases hget : mapGet st.clients clientId with
    | none => simp [startHLSProcessing, hget, spawnCount]
    | some client =>
      cases hp : client.ffmpegProcess with
      | some p => simp [startHLSProcessing, hget, hp, spawnCount]
      | none =>
        have h2 : ¬ 2 ≤ (activeEntries st).length := by omega
        simp [startHLSProcessing, hget, hp, h2, createSingleClientHLSStream,
          mapGet_mapSet_self, spawnCount]

/-- Claim C2 counterexample: two clients hold active sessions; client "a"
owns no job handle, so both of two successive startHLSProcessing("a")
calls take the composite path and spawn a subprocess each — more than one
subprocess for two calls in a row. -/
theorem C2_counterexample :
    ¬ (spawnCount (startHLSProcessing twoActiveState "a").2 +
        spawnCount
          (startHLSProcessing (startHLSProcessing twoActiveState "a").1 "a").2 ≤ 1) := by
  decide

/-- Claim C2 witness: client "a" of the single-session registry already
owns a job handle, so the call is a no-op; and with a single active
session two calls in a row spawn at most one subprocess. -/
theorem C2_idempotence_single_witness :
    startHLSProcessing
        { clients := [("a", { activeClient "a" (wsOpen 0) 0 with ffmpegProcess := some 0 })],
          nextProc := 1, nextPc := 1 } "a" =
      ({ clients := [("a", { activeClient "a" (wsOpen 0) 0 with ffmpegProcess := some 0 })],
         nextProc := 1, nextPc := 1 }, []) ∧
    spawnCount (startHLSProcessing oneActiveState "a").2 +
      spawnCount (startHLSProcessing (startHLSProcessing oneActiveState "a").1 "a").2 ≤ 1 :=
  ⟨(C2_idempotence_single
      { clients := [("a", { activeClient "a" (wsOpen 0) 0 with ffmpegProcess := some 0 })],
        nextProc := 1, nextPc := 1 } "a").1
      { activeClient "a" (wsOpen 0) 0 with ffmpegProcess := some 0 } (by decide) (by decide),
   (C2_idempotence_single oneActiveState "a").2 (by decide)⟩

/-- Claim C3, confirmed: when the named client is registered and owns no
job handle, startHLSProcessing counts the clients holding an active
server-mediated session; with two or more it spawns one composite job on
the first two such clients (in Map insertion order) — their two video
inputs side by side, the first one's audio — and with fewer than two it
spawns one single-client job on the named client's video and audio inputs;
both jobs write to the one shared playlist path. -/
theorem C3_decision (st : ServerState) (clientId : String) (client : ClientConnection)
    (hget : mapGet st.clients clientId = some client)
    (hno : client.ffmpegProcess = none) :
    (∀ e1 e2 rest, activeEntries st = e1 :: e2 :: rest →
      startHLSProcessing st clientId =
        ({ st with nextProc := st.nextProc + 1 },
         [Effect.spawn st.nextProc "ffmpeg"
            (compositeFfmpegArgs (videoPathOf e1.1) (videoPathOf e2.1)
              (audioPathOf e1.1) hlsPlaylistPath)])) ∧
    ((activeEntries st).length < 2 →
      startHLSProcessing st clientId =
        ({ st with
            clients := mapSet st.clients clientId
              { client with ffmpegProcess := some st.nextProc },
            nextProc := st.nextProc + 1 },
         [Effect.spawn st.nextProc "ffmpeg"
            (singleClientFfmpegArgs (videoPathOf clientId) (audioPathOf clientId)
              hlsPlaylistPath)])) := by
  constructor
  · intro e1 e2 rest hact
    have h2 : 2 ≤ (activeEntries st).length := by
      rw [hact]
      simp [Nat.succ_le_succ]
    simp [startHLSProcessing, hget, hno, h2, createCompositeHLSStream, hact]
  · intro hlt
    have h2 : ¬ 2 ≤ (activeEntries st).length := by omega
    simp [startHLSProcessing, hget, hno, h2, createSingleClientHLSStream, hget]

/-- Claim C3 witness: with two active sessions the composite job on the
inputs of "a" and "b" is spawned; with one active session the
single-client job on "a" is spawned; both write to the shared playlist. -/
theorem C3_decision_witness :
    startHLSProcessing twoActiveState "a" =
      ({ twoActiveState with nextProc := 1 },
       [Effect.spawn 0 "ffmpeg"
          (compositeFfmpegArgs (videoPathOf "a") (videoPathOf "b")
            (audioPathOf "a") hlsPlaylistPath)]) ∧
    startHLSProcessing oneActiveState "a" =
      ({ oneActiveState with
          clients := mapSet oneActiveState.clients "a"
            { activeClient "a" (wsOpen 0) 0 with ffmpegProcess := some 0 },
          nextProc := 1 },
       [Effect.spawn 0 "ffmpeg"
          (singleClientFfmpegArgs (videoPathOf "a") (audioPathOf "a") hlsPlaylistPath)]) :=
  ⟨(C3_decision twoActiveState "a" (activeClient "a" (wsOpen 0) 0) (by decide) (by decide)).1
      ("a", activeClient "a" (wsOpen 0) 0) ("b", activeClient "b" (wsOpen 1) 1) [] (by decide),
   (C3_decision oneActiveState "a" (activeClient "a" (wsOpen 0) 0) (by decide) (by decide)).2
      (by decide)⟩

/-- Claim C10, confirmed: starting a composite job changes no client entry
(in particular every client's recorded job-handle field is untouched —
the composite subprocess handle is stored nowhere), and consequently no
later disconnect of any client ever sends a termination signal to the
composite subprocess: disconnect kills only the subprocess recorded in
the departing client's own field. -/
theorem C10_composite_unrecorded (st : ServerState)
    (hfresh : procFresh st)
    (e1 e2 : String × ClientConnection) (rest : List (String × ClientConnection))
    (hact : activeEntries st = e1 :: e2 :: rest) :
    (createCompositeHLSStream st).1.clients = st.clients ∧
    (createCompositeHLSStream st).2 =
      [Effect.spawn st.nextProc "ffmpeg"
        (compositeFfmpegArgs (videoPathOf e1.1) (videoPathOf e2.1)
          (audioPathOf e1.1) hlsPlaylistPath)] ∧
    (∀ cid, Effect.kill st.nextProc "SIGTERM" ∉
      (handleClientDisconnect (createCompositeHLSStream st).1 cid).2) := by
  have hcc : createCompositeHLSStream st =
      ({ st with nextProc := st.nextProc + 1 },
       [Effect.spawn st.nextProc "ffmpeg"
          (compositeFfmpegArgs (videoPathOf e1.1) (videoPathOf e2.1)
            (audioPathOf e1.1) hlsPlaylistPath)]) := by
    simp [createCompositeHLSStream, hact]
  refine ⟨by rw [hcc], by rw [hcc], ?_⟩
  intro cid hmem
  rw [hcc] at hmem
  simp only [handleClientDisconnect] at hmem
  cases hget : mapGet st.clients cid with
  | none => simp [hget] at hmem
  | some client =>
    simp only [hget] at hmem
    rw [List.mem_append] at hmem
    rcases hmem with hmem | hmem
    · have := kill_mem_cleanupEffects hmem
      have hb := hfresh (cid, client) (mapGet_mem hget) st.nextProc this.1
      omega
    · exact kill_not_mem_sendEach _ _ _ _ _ hmem

/-- Claim C10 witness: concrete composite start for "a" and "b": the
clients map is unchanged, the spawn is recorded nowhere, and "a"'s own
disconnect does not kill the composite subprocess. -/
theorem C10_composite_unrecorded_witness :
    (createCompositeHLSStream twoActiveState).1.clients = twoActiveState.clients ∧
    Effect.kill 0 "SIGTERM" ∉
      (handleClientDisconnect (createCompositeHLSStream twoActiveState).1 "a").2 :=
  ⟨(C10_composite_unrecorded twoActiveState
      (by simp [procFresh, twoActiveState, activeClient, bareClient])
      ("a", activeClient "a" (wsOpen 0) 0) ("b", activeClient "b" (wsOpen 1) 1) []
      (by decide)).1,
   (C10_composite_unrecorded twoActiveState
      (by simp [procFresh, twoActiveState, activeClient, bareClient])
      ("a", activeClient "a" (wsOpen 0) 0) ("b", activeClient "b" (wsOpen 1) 1) []
      (by decide)).2.2 "a"⟩

/-- Claim C9, confirmed: when handleServerOffer succeeds for a registered
client, exactly one server-answer message carrying the negotiated local
description is sent back to the offering client, and the stored session
holds that local description — the AnswerSent state. -/
theorem C9_answer (applyOk : String → Bool) (mkAnswer : String → String)
    (st : ServerState) (clientId : String) (client : ClientConnection) (sdp : String)
    (hget : mapGet st.clients clientId = some client)
    (hok : applyOk sdp = true) :
    (handleServerOffer applyOk mkAnswer st clientId (some sdp)).2 =
      [Effect.send clientId (OutMessage.serverAnswer (mkAnswer sdp))] ∧
    mapGet (handleServerOffer applyOk mkAnswer st clientId (some sdp)).1.clients clientId =
      some { client with peerConnection := some (negotiatedPc st.nextPc sdp (mkAnswer sdp)) } ∧
    answerSent { client with peerConnection := some (negotiatedPc st.nextPc sdp (mkAnswer sdp)) } =
      true := by
  refine ⟨?_, ?_, ?_⟩
  · simp [handleServerOffer, hget, hok]
  · simp [handleServerOffer, hget, hok, negotiatedPc, mapGet_mapSet_self]
  · simp [answerSent, negotiatedPc]

/-- Claim C9 witness: concrete successful offer for the registered client
"a". -/
theorem C9_answer_witness :
    (handleServerOffer (fun _ => true) (fun s => s ++ "-ans")
        { clients := [("a", bareClient "a" (wsOpen 0))], nextProc := 0, nextPc := 0 }
        "a" (some "offer-1")).2 =
      [Effect.send "a" (OutMessage.serverAnswer "offer-1-ans")] :=
  (C9_answer (fun _ => true) (fun s => s ++ "-ans")
    { clients := [("a", bareClient "a" (wsOpen 0))], nextProc := 0, nextPc := 0 }
    "a" (bareClient "a" (wsOpen 0)) "offer-1" (by decide) (by decide)).1

/-- Claim C4, amended: a second offer from a client whose session has
reached AnswerSent is not rejected: handleServerOffer builds a fresh peer
connection that silently overwrites the stored session (the new session
differs from every previously stored one) and sends another answer; no
DuplicateOffer error exists in the code. -/
theorem C4_second_offer_overwrites (applyOk : String → Bool) (mkAnswer : String → String)
    (st : ServerState) (clientId : String) (client : ClientConnection) (sdp : String)
    (hpc : pcFresh st)
    (hget : mapGet st.clients clientId = some client)
    (_hprev : answerSent client = true)
    (hok : applyOk sdp = true) :
    (handleServerOffer applyOk mkAnswer st clientId (some sdp)).2 =
      [Effect.send clientId (OutMessage.serverAnswer (mkAnswer sdp))] ∧
    mapGet (handleServerOffer applyOk mkAnswer st clientId (some sdp)).1.clients clientId =
      some { client with peerConnection := some (negotiatedPc st.nextPc sdp (mkAnswer sdp)) } ∧
    (∀ oldPc, client.peerConnection = some oldPc →
      negotiatedPc st.nextPc sdp (mkAnswer sdp) ≠ oldPc) := by
  refine ⟨?_, ?_, ?_⟩
  · simp [handleServerOffer, hget, hok]
  · simp [handleServerOffer, hget, hok, negotiatedPc, mapGet_mapSet_self]
  · intro oldPc hold heq
    have hb := hpc (clientId, client) (mapGet_mem hget) oldPc hold
    rw [← heq] at hb
    simp [negotiatedPc] at hb

/-- Claim C4 counterexample: client "a" is in AnswerSent; a second offer
is processed without any rejection — the stored session is overwritten
(it no longer equals the old one) and another answer is sent instead of a
DuplicateOffer error. -/
theorem C4_counterexample :
    (mapGet (handleServerOffer (fun _ => true) (fun s => s ++ "-ans")
        oneActiveState "a" (some "offer-2")).1.clients "a").map
      (fun c => c.peerConnection) ≠ some (some (pcDemo 0)) ∧
    (handleServerOffer (fun _ => true) (fun s => s ++ "-ans")
        oneActiveState "a" (some "offer-2")).2 ≠ [] := by
  decide

/-- Claim C4 witness: the concrete second offer of the counterexample,
through the amended theorem. -/
theorem C4_second_offer_overwrites_witness :
    (handleServerOffer (fun _ => true) (fun s => s ++ "-ans")
        oneActiveState "a" (some "offer-2")).2 =
      [Effect.send "a" (OutMessage.serverAnswer "offer-2-ans")] ∧
    (∀ oldPc, (activeClient "a" (wsOpen 0) 0).peerConnection = some oldPc →
      negotiatedPc 1 "offer-2" "offer-2-ans" ≠ oldPc) :=
  ⟨(C4_second_offer_overwrites (fun _ => true) (fun s => s ++ "-ans")
      oneActiveState "a" (activeClient "a" (wsOpen 0) 0) "offer-2"
      (by simp [pcFresh, oneActiveState, activeClient, bareClient, pcDemo])
      (by decide) (by decide) (by decide)).1,
   (C4_second_offer_overwrites (fun _ => true) (fun s => s ++ "-ans")
      oneActiveState "a" (activeClient "a" (wsOpen 0) 0) "offer-2"
      (by simp [pcFresh, oneActiveState, activeClient, bareClient, pcDemo])
      (by decide) (by decide) (by decide)).2.2⟩

/-- Claim C5, amended: when description application fails, the error is
caught (the handler is total — no crash of the control loop), no message
is sent, and every other client's entry is untouched; but the session is
not abandoned: the client keeps the freshly created (failed) peer
connection in its session field, so it still counts as holding an active
session. -/
theorem C5_offer_failure (applyOk : String → Bool) (mkAnswer : String → String)
    (st : ServerState) (clientId : String) (client : ClientConnection) (sdp : String)
    (hget : mapGet st.clients clientId = some client)
    (hfail : applyOk sdp = false) :
    (handleServerOffer applyOk mkAnswer st clientId (some sdp)).2 = [] ∧
    mapGet (handleServerOffer applyOk mkAnswer st clientId (some sdp)).1.clients clientId =
      some { client with peerConnection := some (failedPc st.nextPc) } ∧
    (∀ other, other ≠ clientId →
      mapGet (handleServerOffer applyOk mkAnswer st clientId (some sdp)).1.clients other =
        mapGet st.clients other) := by
  refine ⟨?_, ?_, ?_⟩
  · simp [handleServerOffer, hget, hfail]
  · simp [handleServerOffer, hget, hfail, failedPc, mapGet_mapSet_self]
  · intro other hne
    simp [handleServerOffer, hget, hfail, mapGet_mapSet_ne _ _ _ _ hne]

/-- Claim C5 counterexample: a failed offer (description application
rejects) leaves client "a" holding a peer connection — the client is not
left without an active session, contradicting the claimed transition to
Closed. -/
theorem C5_counterexample :
    (mapGet (handleServerOffer (fun _ => false) (fun s => s)
        { clients := [("a", bareClient "a" (wsOpen 0))], nextProc := 0, nextPc := 0 }
        "a" (some "malformed")).1.clients "a").map
      (fun c => c.peerConnection.isSome) = some true := by
  decide

/-- Claim C5 witness: the concrete failed offer, through the amended
theorem: nothing sent and the other client "b" untouched. -/
theorem C5_offer_failure_witness :
    (handleServerOffer (fun _ => false) (fun s => s) twoActiveState "a"
        (some "malformed")).2 = [] ∧
    mapGet (handleServerOffer (fun _ => false) (fun s => s) twoActiveState "a"
        (some "malformed")).1.clients "b" = mapGet twoActiveState.clients "b" :=
  ⟨(C5_offer_failure (fun _ => false) (fun s => s) twoActiveState "a"
      (activeClient "a" (wsOpen 0) 0) "malformed" (by decide) (by decide)).1,
   (C5_offer_failure (fun _ => false) (fun s => s) twoActiveState "a"
      (activeClient "a" (wsOpen 0) 0) "malformed" (by decide) (by decide)).2.2 "b"
      (by decide)⟩

/-- Claim C8, confirmed: after handleClientDisconnect for a registered
client, the id no longer resolves in the registry, a recorded subprocess
received SIGTERM, every populated media sink was ended, and every
remaining client with an open channel receives exactly one
peer-disconnected notification naming the departed id; the handler is
total, so it is safe when session, sinks or subprocess were never
populated. -/
theorem C8_disconnect (st : ServerState) (clientId : String) (client : ClientConnection)
    (hnd : (st.clients.map Prod.fst).Nodup)
    (hget : mapGet st.clients clientId = some client) :
    mapGet (handleClientDisconnect st clientId).1.clients clientId = none ∧
    (∀ p, client.ffmpegProcess = some p →
      Effect.kill p "SIGTERM" ∈ (handleClientDisconnect st clientId).2) ∧
    (∀ s, client.mediaStreams.video = some s →
      Effect.endStream s ∈ (handleClientDisconnect st clientId).2) ∧
    (∀ s, client.mediaStreams.audio = some s →
      Effect.endStream s ∈ (handleClientDisconnect st clientId).2) ∧
    (∀ cid c, (cid, c) ∈ (handleClientDisconnect st clientId).1.clients →
      c.ws.readyState = true →
      (handleClientDisconnect st clientId).2.count
        (Effect.send cid (OutMessage.peerDisconnected clientId)) = 1) := by
  have hd : handleClientDisconnect st clientId =
      ({ st with clients := mapDelete st.clients clientId },
       cleanupEffects client ++
         sendEach (mapDelete st.clients clientId) (fun e => e.2.ws.readyState)
           (OutMessage.peerDisconnected clientId)) := by
    simp [handleClientDisconnect, hget]
  rw [hd]
  refine ⟨mapGet_mapDelete_self _ _, ?_, ?_, ?_, ?_⟩
  · intro p hp
    rw [List.mem_append]
    left
    simp [cleanupEffects, hp]
  · intro s hs
    rw [List.mem_append]
    left
    simp [cleanupEffects, hs]
  · intro s hs
    rw [List.mem_append]
    left
    simp [cleanupEffects, hs]
  · intro cid c hmem hopen
    rw [List.count_append]
    have h0 : (cleanupEffects client).count
        (Effect.send cid (OutMessage.peerDisconnected clientId)) = 0 :=
      List.count_eq_zero.mpr (send_not_mem_cleanupEffects client cid _)
    have hnd' : ((mapDelete st.clients clientId).map Prod.fst).Nodup :=
      ((mapDelete_sublist st.clients clientId).map Prod.fst).nodup hnd
    have h1 : (sendEach (mapDelete st.clients clientId) (fun e => e.2.ws.readyState)
        (OutMessage.peerDisconnected clientId)).count
          (Effect.send cid (OutMessage.peerDisconnected clientId)) = 1 :=
      count_sendEach_eq_one hnd' hmem hopen
    rw [h0, h1]

/-- A fully populated client "a": active session, both sinks open, a
recorded transcode subprocess. -/
def fullClient : ClientConnection :=
  { activeClient "a" (wsOpen 0) 0 with
    mediaStreams := { video := some 5, audio := some 6 }, ffmpegProcess := some 7 }

/-- Registry used to exercise disconnect cleanup: the populated "a" plus a
second open client "b". -/
def c8State : ServerState :=
  { clients := [("a", fullClient), ("b", bareClient "b" (wsOpen 1))],
    nextProc := 8, nextPc := 1 }

/-- Claim C8 witness: disconnecting the populated client "a": its id stops
resolving, its subprocess gets SIGTERM, and the remaining open client "b"
receives exactly one peer-disconnected notification naming "a". -/
theorem C8_disconnect_witness :
    mapGet (handleClientDisconnect c8State "a").1.clients "a" = none ∧
    Effect.kill 7 "SIGTERM" ∈ (handleClientDisconnect c8State "a").2 ∧
    (handleClientDisconnect c8State "a").2.count
      (Effect.send "b" (OutMessage.peerDisconnected "a")) = 1 :=
  ⟨(C8_disconnect c8State "a" fullClient (by decide) (by decide)).1,
   (C8_disconnect c8State "a" fullClient (by decide) (by decide)).2.1 7 (by decide),
   (C8_disconnect c8State "a" fullClient (by decide) (by decide)).2.2.2.2 "b"
     (bareClient "b" (wsOpen 1)) (by decide) (by decide)⟩
